import Mathlib

/-!
Verification of the snappy skills registry (`skills/repo.go`).

The registry stores capability types, skills ("providers"), slots
("consumers") and the grant relation between them, the latter kept as a
dual index (`skillUsedBySlot` / `slotsUsingSkill`).  Go maps indexed by
`[snapName][skillName]` are embedded as association lists keyed by the
pair `(snapName, skillName)`; the pointer-keyed grant maps are embedded
as lists of (value, value) pairs, which is faithful because the tables
hold at most one skill/slot per key and edges only ever reference
entries of the tables.  Each operation returns the updated repository
together with an optional error; every `fmt.Errorf` site of the source
is mirrored by one constructor of `RepoError` carrying its format
arguments.
-/

/-- A skill (provider endpoint).  Modelled from the spec: the `Skill`
struct itself is declared outside the given source file; the spec gives
a Provider the attributes `owner` (the snap name), `name` and `type`
(field `typ` here, since `type` cannot be a plain field name in Lean),
and `repo.go` accesses exactly the fields `Snap`, `Name` and `Type`. -/
structure Skill where
  snap : String
  name : String
  typ : String
deriving DecidableEq, Repr

/-- A slot (consumer endpoint).  Modelled from the spec, like `Skill`:
same attribute shape, identity key `(owner, name)`. -/
structure Slot where
  snap : String
  name : String
  typ : String
deriving DecidableEq, Repr

/-- A capability type.  Modelled from the spec: the Go `Type` interface
(external to `repo.go`) exposes `Name()` and a `Sanitize(skill)` check;
the spec describes the latter as a pass/fail `validate` returning a
reason on failure, embedded here as `sanitize : Skill → Option String`
with `none` meaning the check passes. -/
structure SkillType where
  name : String
  sanitize : Skill → Option String

/-- Modelled from the spec: the external identifier-validation
predicates, consumed as pass/fail checks — `snapValidateName` stands for
`snap.ValidateName` (tenant identifiers) and `validateName` for the
skills package's `ValidateName` (skill/slot/type identifiers), both
declared outside the given source file. -/
structure Env where
  snapValidateName : String → Bool
  validateName : String → Bool

/-- One constructor per error-returning site of `repo.go`.
`validateNameFailed` / `snapValidateNameFailed` stand for the errors
propagated from the external validators; the remaining constructors
mirror the `fmt.Errorf` calls with their format arguments. -/
inductive RepoError where
  | validateNameFailed (name : String)
  | snapValidateNameFailed (name : String)
  | typeNameInUse (typeName : String)
  | skillTypeNotKnown (typeName : String)
  | sanitizeRejected (reason : String)
  | skillNameInUse (skillName : String)
  | removeSkillNotFound (snapName skillName : String)
  | removeSkillInUse (snapName skillName : String)
  | slotTypeNotKnown (typeName : String)
  | slotNameInUse (slotName : String)
  | removeSlotNotFound (snapName slotName : String)
  | removeSlotInUse (snapName slotName : String)
  | grantSkillNotFound (snapName skillName : String)
  | grantSlotNotFound (snapName slotName : String)
  | grantTypeMismatch (skillType slotType : String)
  | grantAlreadyGranted (skillSnap skillName slotSnap slotName : String)
  | revokeSkillNotFound (snapName skillName : String)
  | revokeSlotNotFound (snapName slotName : String)
  | revokeNotGranted (skillSnap skillName slotSnap slotName : String)
deriving DecidableEq, Repr

/-- Lookup in an association list keyed by strings: the embedding of a
Go map read `m[name]` (returning `none` where Go yields `nil`). -/
def lookupName {α : Type} (k : String) : List (String × α) → Option α
  | [] => none
  | e :: l => if e.1 = k then some e.2 else lookupName k l

/-- Lookup in an association list keyed by `(snapName, name)` pairs: the
embedding of a two-level Go map read `m[snapName][name]`. -/
def lookupKey {α : Type} (k : String × String) : List ((String × String) × α) → Option α
  | [] => none
  | e :: l => if e.1 = k then some e.2 else lookupKey k l

/-- The embedding of `delete(m[snapName], name)` on a two-level Go map:
drop every entry carrying the key. -/
def deleteKey {α : Type} (k : String × String) (l : List ((String × String) × α)) :
    List ((String × String) × α) :=
  l.filter (fun e => decide (e.1 ≠ k))

/-- The embedding of setting `m[a][b] = true` in a pointer-keyed
two-level boolean Go map viewed as a set of pairs: add the pair unless
it is already present. -/
def insertPair {α : Type} [DecidableEq α] (p : α) (l : List α) : List α :=
  if p ∈ l then l else p :: l

/-- The embedding of `delete(m[a], b)` on such a set of pairs. -/
def removePair {α : Type} [DecidableEq α] (p : α) (l : List α) : List α :=
  l.filter (fun e => decide (e ≠ p))

/-- `Repository` (repo.go:31-40): capability types, the skill and slot
tables (Go: `map[string]map[string]*Skill`, flattened to pair keys) and
the two directions of the grant index.  The mutex is not embedded —
operations are sequential state transformers here. -/
structure Repository where
  types : List (String × SkillType)
  skills : List ((String × String) × Skill)
  slots : List ((String × String) × Slot)
  skillUsedBySlot : List (Slot × Skill)
  slotsUsingSkill : List (Skill × Slot)

/-- `NewRepository` (repo.go:43-51): the empty repository. -/
def NewRepository : Repository :=
  { types := [], skills := [], slots := [], skillUsedBySlot := [], slotsUsingSkill := [] }

/-- `Repository.Type` (repo.go:54-59); named `findType` because `Type`
is reserved in Lean. -/
def Repository.findType (r : Repository) (typeName : String) : Option SkillType :=
  lookupName typeName r.types

/-- `Repository.AddType` (repo.go:62-75). -/
def Repository.AddType (env : Env) (r : Repository) (t : SkillType) :
    Repository × Option RepoError :=
  let typeName := t.name
  if !env.validateName typeName then
    (r, some (.validateNameFailed typeName))
  else if (lookupName typeName r.types).isSome then
    (r, some (.typeNameInUse typeName))
  else
    ({ r with types := (typeName, t) :: r.types }, none)

/-- `bySkillSnapAndName.Less` (repo.go:352-357). -/
def bySkillSnapAndNameLess (a b : Skill) : Bool :=
  if a.snap ≠ b.snap then decide (a.snap < b.snap) else decide (a.name < b.name)

/-- The non-strict order `sort.Sort` leaves a slice in: `a` may precede
`b` exactly when `Less b a` is false. -/
def skillLe (a b : Skill) : Bool :=
  !bySkillSnapAndNameLess b a

/-- The sort relation as a proposition, for the insertion sort below. -/
def skillLeR (a b : Skill) : Prop :=
  skillLe a b = true

instance : DecidableRel skillLeR :=
  fun a b => instDecidableEqBool (skillLe a b) true

/-- The embedding of `sort.Sort(bySkillSnapAndName(result))`: `sort.Sort`
promises a slice ordered by the comparator (the algorithm is
unspecified), modelled by an insertion sort with respect to the
non-strict order derived from `Less`. -/
def sortSkills (l : List Skill) : List Skill :=
  List.insertionSort skillLeR l

/-- `bySlotSnapAndName.Less` (repo.go:363-368). -/
def bySlotSnapAndNameLess (a b : Slot) : Bool :=
  if a.snap ≠ b.snap then decide (a.snap < b.snap) else decide (a.name < b.name)

/-- The non-strict order for slots, as `skillLe`. -/
def slotLe (a b : Slot) : Bool :=
  !bySlotSnapAndNameLess b a

/-- The sort relation for slots as a proposition. -/
def slotLeR (a b : Slot) : Prop :=
  slotLe a b = true

instance : DecidableRel slotLeR :=
  fun a b => instDecidableEqBool (slotLe a b) true

/-- The embedding of `sort.Sort(bySlotSnapAndName(result))`, as
`sortSkills`. -/
def sortSlots (l : List Slot) : List Slot :=
  List.insertionSort slotLeR l

/-- `Repository.AllSkills` (repo.go:79-93): all skills of the given
type, every skill when `skillType` is empty, sorted. -/
def Repository.AllSkills (r : Repository) (skillType : String) : List Skill :=
  sortSkills ((r.skills.map (fun e => e.2)).filter
    (fun skill => skillType == "" || skill.typ == skillType))

/-- `Repository.Skills` (repo.go:96-106): the skills offered by the
named snap, sorted. -/
def Repository.Skills (r : Repository) (snapName : String) : List Skill :=
  sortSkills ((r.skills.filter (fun e => e.1.1 == snapName)).map (fun e => e.2))

/-- `Repository.Skill` (repo.go:109-114); named `findSkill` because the
structure `Skill` takes the Go name. -/
def Repository.findSkill (r : Repository) (snapName skillName : String) : Option Skill :=
  lookupKey (snapName, skillName) r.skills

/-- `Repository.AddSkill` (repo.go:119-147). -/
def Repository.AddSkill (env : Env) (r : Repository) (skill : Skill) :
    Repository × Option RepoError :=
  if !env.snapValidateName skill.snap then
    (r, some (.snapValidateNameFailed skill.snap))
  else if !env.validateName skill.name then
    (r, some (.validateNameFailed skill.name))
  else
    match lookupName skill.typ r.types with
    | none => (r, some (.skillTypeNotKnown skill.typ))
    | some t =>
      match t.sanitize skill with
      | some reason => (r, some (.sanitizeRejected reason))
      | none =>
        if (lookupKey (skill.snap, skill.name) r.skills).isSome then
          (r, some (.skillNameInUse skill.name))
        else
          ({ r with skills := ((skill.snap, skill.name), skill) :: r.skills }, none)

/-- `Repository.RemoveSkill` (repo.go:151-166). -/
def Repository.RemoveSkill (r : Repository) (snapName skillName : String) :
    Repository × Option RepoError :=
  match lookupKey (snapName, skillName) r.skills with
  | none => (r, some (.removeSkillNotFound snapName skillName))
  | some skill =>
    if r.slotsUsingSkill.any (fun e => decide (e.1 = skill)) then
      (r, some (.removeSkillInUse snapName skillName))
    else
      ({ r with skills := deleteKey (snapName, skillName) r.skills }, none)

/-- `Repository.AllSlots` (repo.go:170-184). -/
def Repository.AllSlots (r : Repository) (skillType : String) : List Slot :=
  sortSlots ((r.slots.map (fun e => e.2)).filter
    (fun slot => skillType == "" || slot.typ == skillType))

/-- `Repository.Slots` (repo.go:187-197). -/
def Repository.Slots (r : Repository) (snapName : String) : List Slot :=
  sortSlots ((r.slots.filter (fun e => e.1.1 == snapName)).map (fun e => e.2))

/-- `Repository.Slot` (repo.go:200-205); named `findSlot` because the
structure `Slot` takes the Go name. -/
def Repository.findSlot (r : Repository) (snapName slotName : String) : Option Slot :=
  lookupKey (snapName, slotName) r.slots

/-- `Repository.AddSlot` (repo.go:210-232).  Note that, unlike
`AddSkill`, the source validates only the slot name (the snap name is a
`TODO` in the source) and never calls `Sanitize`. -/
def Repository.AddSlot (env : Env) (r : Repository) (slot : Slot) :
    Repository × Option RepoError :=
  if !env.validateName slot.name then
    (r, some (.validateNameFailed slot.name))
  else
    match lookupName slot.typ r.types with
    | none => (r, some (.slotTypeNotKnown slot.typ))
    | some _ =>
      if (lookupKey (slot.snap, slot.name) r.slots).isSome then
        (r, some (.slotNameInUse slot.name))
      else
        ({ r with slots := ((slot.snap, slot.name), slot) :: r.slots }, none)

/-- `Repository.RemoveSlot` (repo.go:237-252). -/
def Repository.RemoveSlot (r : Repository) (snapName slotName : String) :
    Repository × Option RepoError :=
  match lookupKey (snapName, slotName) r.slots with
  | none => (r, some (.removeSlotNotFound snapName slotName))
  | some slot =>
    if r.skillUsedBySlot.any (fun e => decide (e.1 = slot)) then
      (r, some (.removeSlotInUse snapName slotName))
    else
      ({ r with slots := deleteKey (snapName, slotName) r.slots }, none)

/-- `Repository.Grant` (repo.go:256-289). -/
def Repository.Grant (r : Repository) (skillSnapName skillName slotSnapName slotName : String) :
    Repository × Option RepoError :=
  match lookupKey (skillSnapName, skillName) r.skills with
  | none => (r, some (.grantSkillNotFound skillSnapName skillName))
  | some skill =>
    match lookupKey (slotSnapName, slotName) r.slots with
    | none => (r, some (.grantSlotNotFound slotSnapName slotName))
    | some slot =>
      if slot.typ ≠ skill.typ then
        (r, some (.grantTypeMismatch skill.typ slot.typ))
      else if (slot, skill) ∈ r.skillUsedBySlot then
        (r, some (.grantAlreadyGranted skill.snap skill.name slot.snap slot.name))
      else
        ({ r with
            skillUsedBySlot := insertPair (slot, skill) r.skillUsedBySlot,
            slotsUsingSkill := insertPair (skill, slot) r.slotsUsingSkill }, none)

/-- `Repository.Revoke` (repo.go:292-314). -/
def Repository.Revoke (r : Repository) (skillSnapName skillName slotSnapName slotName : String) :
    Repository × Option RepoError :=
  match lookupKey (skillSnapName, skillName) r.skills with
  | none => (r, some (.revokeSkillNotFound skillSnapName skillName))
  | some skill =>
    match lookupKey (slotSnapName, slotName) r.slots with
    | none => (r, some (.revokeSlotNotFound slotSnapName slotName))
    | some slot =>
      if (slot, skill) ∈ r.skillUsedBySlot then
        ({ r with
            skillUsedBySlot := removePair (slot, skill) r.skillUsedBySlot,
            slotsUsingSkill := removePair (skill, slot) r.slotsUsingSkill }, none)
      else
        (r, some (.revokeNotGranted skill.snap skill.name slot.snap slot.name))

/-- `Repository.GrantedTo` (repo.go:317-329): for each slot of the snap
that has at least one granted skill, the sorted list of those skills
(slots with no grant are absent from the Go result map). -/
def Repository.GrantedTo (r : Repository) (snapName : String) : List (Slot × List Skill) :=
  (r.slots.filter (fun e => e.1.1 == snapName)).filterMap (fun e =>
    let granted := (r.skillUsedBySlot.filter (fun p => decide (p.1 = e.2))).map (fun p => p.2)
    if granted.isEmpty then none else some (e.2, sortSkills granted))

/-- `Repository.GrantedBy` (repo.go:332-344). -/
def Repository.GrantedBy (r : Repository) (snapName : String) : List (Skill × List Slot) :=
  (r.skills.filter (fun e => e.1.1 == snapName)).filterMap (fun e =>
    let granted := (r.slotsUsingSkill.filter (fun p => decide (p.1 = e.2))).map (fun p => p.2)
    if granted.isEmpty then none else some (e.2, sortSlots granted))

/-! ### Helper lemmas about the association-list and pair-set helpers -/

theorem lookupName_cons {α : Type} (k : String) (e : String × α) (l : List (String × α)) :
    lookupName k (e :: l) = if e.1 = k then some e.2 else lookupName k l := rfl

theorem lookupKey_cons {α : Type} (k : String × String) (e : (String × String) × α)
    (l : List ((String × String) × α)) :
    lookupKey k (e :: l) = if e.1 = k then some e.2 else lookupKey k l := rfl

theorem lookupKey_mem {α : Type} {k : String × String} {v : α}
    {l : List ((String × String) × α)} (h : lookupKey k l = some v) : (k, v) ∈ l := by
  induction l with
  | nil => simp [lookupKey] at h
  | cons e l ih =>
    rw [lookupKey_cons] at h
    by_cases he : e.1 = k
    · rw [if_pos he] at h
      obtain rfl : e.2 = v := Option.some.inj h
      rw [← he]
      exact List.mem_cons_self _ _
    · rw [if_neg he] at h
      exact List.mem_cons_of_mem _ (ih h)

theorem lookupKey_cons_ne {α : Type} {k k' : String × String} (v : α)
    (l : List ((String × String) × α)) (h : k' ≠ k) :
    lookupKey k ((k', v) :: l) = lookupKey k l := by
  rw [lookupKey_cons, if_neg h]

theorem lookupKey_deleteKey_self {α : Type} (k : String × String)
    (l : List ((String × String) × α)) : lookupKey k (deleteKey k l) = none := by
  induction l with
  | nil => rfl
  | cons e l ih =>
    simp only [deleteKey] at ih ⊢
    by_cases he : e.1 = k
    · rw [List.filter_cons_of_neg (by simp [he])]
      exact ih
    · rw [List.filter_cons_of_pos (by simp [he]), lookupKey_cons, if_neg he]
      exact ih

theorem lookupKey_deleteKey_ne {α : Type} {k k' : String × String}
    (l : List ((String × String) × α)) (h : k' ≠ k) :
    lookupKey k' (deleteKey k l) = lookupKey k' l := by
  induction l with
  | nil => rfl
  | cons e l ih =>
    simp only [deleteKey] at ih ⊢
    by_cases he : e.1 = k
    · have hne : ¬e.1 = k' := by rw [he]; exact fun hk => h hk.symm
      rw [List.filter_cons_of_neg (by simp [he]), ih, lookupKey_cons, if_neg hne]
    · rw [List.filter_cons_of_pos (by simp [he]), lookupKey_cons, lookupKey_cons, ih]

theorem mem_deleteKey {α : Type} {e : (String × String) × α} {k : String × String}
    {l : List ((String × String) × α)} :
    e ∈ deleteKey k l ↔ e ∈ l ∧ e.1 ≠ k := by
  simp [deleteKey]

theorem mem_insertPair {α : Type} [DecidableEq α] {x p : α} {l : List α} :
    x ∈ insertPair p l ↔ x = p ∨ x ∈ l := by
  unfold insertPair
  by_cases hp : p ∈ l
  · rw [if_pos hp]
    constructor
    · exact Or.inr
    · rintro (rfl | hx)
      · exact hp
      · exact hx
  · rw [if_neg hp]
    exact List.mem_cons

theorem insertPair_of_not_mem {α : Type} [DecidableEq α] {p : α} {l : List α}
    (h : p ∉ l) : insertPair p l = p :: l := by
  unfold insertPair
  rw [if_neg h]

theorem mem_removePair {α : Type} [DecidableEq α] {x p : α} {l : List α} :
    x ∈ removePair p l ↔ x ∈ l ∧ x ≠ p := by
  simp [removePair]

theorem removePair_cons_self {α : Type} [DecidableEq α] {p : α} {l : List α}
    (h : p ∉ l) : removePair p (p :: l) = l := by
  unfold removePair
  rw [List.filter_cons_of_neg (by simp)]
  rw [List.filter_eq_self.mpr]
  intro a ha
  simp only [decide_eq_true_eq]
  rintro rfl
  exact h ha

/-! ### The sort comparators and sortedness of the listing results -/

/-- Ascending order by `(owner, name)`: the ordering contract of the
spec, stated over the fields. -/
def skillKeyLe (a b : Skill) : Prop :=
  a.snap < b.snap ∨ (a.snap = b.snap ∧ a.name ≤ b.name)

/-- Ascending order by `(owner, name)` for slots. -/
def slotKeyLe (a b : Slot) : Prop :=
  a.snap < b.snap ∨ (a.snap = b.snap ∧ a.name ≤ b.name)

theorem skillLe_iff (a b : Skill) : skillLe a b = true ↔ skillKeyLe a b := by
  unfold skillLe bySkillSnapAndNameLess skillKeyLe
  by_cases hs : b.snap = a.snap
  · rw [if_neg (by simp [hs])]
    simp only [Bool.not_eq_true', decide_eq_false_iff_not, not_lt]
    constructor
    · intro h
      exact Or.inr ⟨hs.symm, h⟩
    · rintro (h | ⟨-, h⟩)
      · exact absurd (hs ▸ h) (lt_irrefl _)
      · exact h
  · rw [if_pos hs]
    simp only [Bool.not_eq_true', decide_eq_false_iff_not, not_lt]
    constructor
    · intro h
      exact Or.inl (lt_of_le_of_ne h (fun he => hs he.symm))
    · rintro (h | ⟨he, -⟩)
      · exact le_of_lt h
      · exact absurd he.symm hs

theorem slotLe_iff (a b : Slot) : slotLe a b = true ↔ slotKeyLe a b := by
  unfold slotLe bySlotSnapAndNameLess slotKeyLe
  by_cases hs : b.snap = a.snap
  · rw [if_neg (by simp [hs])]
    simp only [Bool.not_eq_true', decide_eq_false_iff_not, not_lt]
    constructor
    · intro h
      exact Or.inr ⟨hs.symm, h⟩
    · rintro (h | ⟨-, h⟩)
      · exact absurd (hs ▸ h) (lt_irrefl _)
      · exact h
  · rw [if_pos hs]
    simp only [Bool.not_eq_true', decide_eq_false_iff_not, not_lt]
    constructor
    · intro h
      exact Or.inl (lt_of_le_of_ne h (fun he => hs he.symm))
    · rintro (h | ⟨he, -⟩)
      · exact le_of_lt h
      · exact absurd he.symm hs

theorem skillLe_trans (a b c : Skill) (hab : skillLe a b = true) (hbc : skillLe b c = true) :
    skillLe a c = true := by
  rw [skillLe_iff] at hab hbc ⊢
  rcases hab with h1 | ⟨e1, h1⟩ <;> rcases hbc with h2 | ⟨e2, h2⟩
  · exact Or.inl (lt_trans h1 h2)
  · exact Or.inl (lt_of_lt_of_eq h1 e2)
  · exact Or.inl (lt_of_eq_of_lt e1 h2)
  · exact Or.inr ⟨e1.trans e2, le_trans h1 h2⟩

theorem skillLe_total (a b : Skill) : (skillLe a b || skillLe b a) = true := by
  rw [Bool.or_eq_true, skillLe_iff, skillLe_iff]
  rcases lt_trichotomy a.snap b.snap with h | h | h
  · exact Or.inl (Or.inl h)
  · rcases le_total a.name b.name with hn | hn
    · exact Or.inl (Or.inr ⟨h, hn⟩)
    · exact Or.inr (Or.inr ⟨h.symm, hn⟩)
  · exact Or.inr (Or.inl h)

theorem slotLe_trans (a b c : Slot) (hab : slotLe a b = true) (hbc : slotLe b c = true) :
    slotLe a c = true := by
  rw [slotLe_iff] at hab hbc ⊢
  rcases hab with h1 | ⟨e1, h1⟩ <;> rcases hbc with h2 | ⟨e2, h2⟩
  · exact Or.inl (lt_trans h1 h2)
  · exact Or.inl (lt_of_lt_of_eq h1 e2)
  · exact Or.inl (lt_of_eq_of_lt e1 h2)
  · exact Or.inr ⟨e1.trans e2, le_trans h1 h2⟩

theorem slotLe_total (a b : Slot) : (slotLe a b || slotLe b a) = true := by
  rw [Bool.or_eq_true, slotLe_iff, slotLe_iff]
  rcases lt_trichotomy a.snap b.snap with h | h | h
  · exact Or.inl (Or.inl h)
  · rcases le_total a.name b.name with hn | hn
    · exact Or.inl (Or.inr ⟨h, hn⟩)
    · exact Or.inr (Or.inr ⟨h.symm, hn⟩)
  · exact Or.inr (Or.inl h)

instance : IsTrans Skill skillLeR :=
  ⟨fun a b c => skillLe_trans a b c⟩

instance : IsTotal Skill skillLeR :=
  ⟨fun a b => by
    have h := skillLe_total a b
    rw [Bool.or_eq_true] at h
    exact h⟩

instance : IsTrans Slot slotLeR :=
  ⟨fun a b c => slotLe_trans a b c⟩

instance : IsTotal Slot slotLeR :=
  ⟨fun a b => by
    have h := slotLe_total a b
    rw [Bool.or_eq_true] at h
    exact h⟩

theorem sortSkills_sorted (l : List Skill) : List.Pairwise skillKeyLe (sortSkills l) :=
  List.Pairwise.imp (fun hab => (skillLe_iff _ _).mp hab)
    (List.sorted_insertionSort skillLeR l)

theorem sortSlots_sorted (l : List Slot) : List.Pairwise slotKeyLe (sortSlots l) :=
  List.Pairwise.imp (fun hab => (slotLe_iff _ _).mp hab)
    (List.sorted_insertionSort slotLeR l)

/-! ### Shape of each mutating operation: unchanged on failure, one
specific update on success -/

theorem AddType_shape (env : Env) (r : Repository) (t : SkillType) :
    (Repository.AddType env r t).1 = r ∨
    (Repository.AddType env r t).1 = { r with types := (t.name, t) :: r.types } := by
  unfold Repository.AddType
  dsimp only
  split
  · exact Or.inl rfl
  · split
    · exact Or.inl rfl
    · exact Or.inr rfl

theorem AddSkill_shape (env : Env) (r : Repository) (skill : Skill) :
    (Repository.AddSkill env r skill).1 = r ∨
    (lookupKey (skill.snap, skill.name) r.skills = none ∧
      (Repository.AddSkill env r skill).1 =
        { r with skills := ((skill.snap, skill.name), skill) :: r.skills }) := by
  unfold Repository.AddSkill
  split
  · exact Or.inl rfl
  · split
    · exact Or.inl rfl
    · split
      · exact Or.inl rfl
      · split
        · exact Or.inl rfl
        · split
          · exact Or.inl rfl
          · rename_i h
            exact Or.inr ⟨by simpa using h, rfl⟩

theorem RemoveSkill_shape (r : Repository) (a b : String) :
    (Repository.RemoveSkill r a b).1 = r ∨
    (∃ skill, lookupKey (a, b) r.skills = some skill ∧
      (∀ e ∈ r.slotsUsingSkill, e.1 ≠ skill) ∧
      (Repository.RemoveSkill r a b).1 = { r with skills := deleteKey (a, b) r.skills }) := by
  unfold Repository.RemoveSkill
  split
  · exact Or.inl rfl
  · rename_i skill hsk
    split
    · exact Or.inl rfl
    · rename_i hany
      refine Or.inr ⟨skill, hsk, ?_, rfl⟩
      simp only [List.any_eq_true, decide_eq_true_eq, not_exists] at hany
      push_neg at hany
      exact hany

theorem AddSlot_shape (env : Env) (r : Repository) (slot : Slot) :
    (Repository.AddSlot env r slot).1 = r ∨
    (lookupKey (slot.snap, slot.name) r.slots = none ∧
      (Repository.AddSlot env r slot).1 =
        { r with slots := ((slot.snap, slot.name), slot) :: r.slots }) := by
  unfold Repository.AddSlot
  split
  · exact Or.inl rfl
  · split
    · exact Or.inl rfl
    · split
      · exact Or.inl rfl
      · rename_i h
        exact Or.inr ⟨by simpa using h, rfl⟩

theorem RemoveSlot_shape (r : Repository) (a b : String) :
    (Repository.RemoveSlot r a b).1 = r ∨
    (∃ slot, lookupKey (a, b) r.slots = some slot ∧
      (∀ e ∈ r.skillUsedBySlot, e.1 ≠ slot) ∧
      (Repository.RemoveSlot r a b).1 = { r with slots := deleteKey (a, b) r.slots }) := by
  unfold Repository.RemoveSlot
  split
  · exact Or.inl rfl
  · rename_i slot hsl
    split
    · exact Or.inl rfl
    · rename_i hany
      refine Or.inr ⟨slot, hsl, ?_, rfl⟩
      simp only [List.any_eq_true, decide_eq_true_eq, not_exists] at hany
      push_neg at hany
      exact hany

theorem Grant_shape (r : Repository) (a b c d : String) :
    (Repository.Grant r a b c d).1 = r ∨
    (∃ skill slot, lookupKey (a, b) r.skills = some skill ∧
      lookupKey (c, d) r.slots = some slot ∧ slot.typ = skill.typ ∧
      (slot, skill) ∉ r.skillUsedBySlot ∧
      (Repository.Grant r a b c d).1 =
        { r with
            skillUsedBySlot := (slot, skill) :: r.skillUsedBySlot,
            slotsUsingSkill := insertPair (skill, slot) r.slotsUsingSkill }) := by
  unfold Repository.Grant
  split
  · exact Or.inl rfl
  · rename_i skill hsk
    split
    · exact Or.inl rfl
    · rename_i slot hsl
      split
      · exact Or.inl rfl
      · split
        · exact Or.inl rfl
        · rename_i hty hmem
          refine Or.inr ⟨skill, slot, hsk, hsl, not_not.mp hty, hmem, ?_⟩
          dsimp only
          rw [insertPair_of_not_mem hmem]

theorem Revoke_shape (r : Repository) (a b c d : String) :
    (Repository.Revoke r a b c d).1 = r ∨
    (∃ skill slot, lookupKey (a, b) r.skills = some skill ∧
      lookupKey (c, d) r.slots = some slot ∧
      (slot, skill) ∈ r.skillUsedBySlot ∧
      (Repository.Revoke r a b c d).1 =
        { r with
            skillUsedBySlot := removePair (slot, skill) r.skillUsedBySlot,
            slotsUsingSkill := removePair (skill, slot) r.slotsUsingSkill }) := by
  unfold Repository.Revoke
  split
  · exact Or.inl rfl
  · rename_i skill hsk
    split
    · exact Or.inl rfl
    · rename_i slot hsl
      split
      · rename_i hmem
        exact Or.inr ⟨skill, slot, hsk, hsl, hmem, rfl⟩
      · exact Or.inl rfl

/-! ### Reachable states and the registry invariants -/

/-- Every table entry is stored under the key derived from its own
`(snap, name)` fields, as `AddSkill` / `AddSlot` do. -/
def KeyCoherent (r : Repository) : Prop :=
  (∀ e ∈ r.skills, e.1 = (e.2.snap, e.2.name)) ∧
  (∀ e ∈ r.slots, e.1 = (e.2.snap, e.2.name))

/-- I4: the two directions of the grant index represent the same edge
set. -/
def DualConsistent (r : Repository) : Prop :=
  ∀ slot skill, (slot, skill) ∈ r.skillUsedBySlot ↔ (skill, slot) ∈ r.slotsUsingSkill

/-- Referential integrity: every edge of the forward index connects a
slot and a skill that are present in the tables. -/
def EdgesValid (r : Repository) : Prop :=
  ∀ p ∈ r.skillUsedBySlot,
    lookupKey (p.1.snap, p.1.name) r.slots = some p.1 ∧
    lookupKey (p.2.snap, p.2.name) r.skills = some p.2

/-- The combined registry invariant. -/
def RepoInv (r : Repository) : Prop :=
  KeyCoherent r ∧ DualConsistent r ∧ EdgesValid r

/-- States reachable from the empty repository by any sequence of
operations (the read-only queries do not change the state). -/
inductive Reachable (env : Env) : Repository → Prop where
  | empty : Reachable env NewRepository
  | addType (r : Repository) (t : SkillType) : Reachable env r →
      Reachable env (Repository.AddType env r t).1
  | addSkill (r : Repository) (skill : Skill) : Reachable env r →
      Reachable env (Repository.AddSkill env r skill).1
  | removeSkill (r : Repository) (a b : String) : Reachable env r →
      Reachable env (Repository.RemoveSkill r a b).1
  | addSlot (r : Repository) (slot : Slot) : Reachable env r →
      Reachable env (Repository.AddSlot env r slot).1
  | removeSlot (r : Repository) (a b : String) : Reachable env r →
      Reachable env (Repository.RemoveSlot r a b).1
  | grant (r : Repository) (a b c d : String) : Reachable env r →
      Reachable env (Repository.Grant r a b c d).1
  | revoke (r : Repository) (a b c d : String) : Reachable env r →
      Reachable env (Repository.Revoke r a b c d).1

theorem RepoInv_new : RepoInv NewRepository := by
  refine ⟨⟨?_, ?_⟩, ?_, ?_⟩
  · intro e he
    exact absurd he (List.not_mem_nil e)
  · intro e he
    exact absurd he (List.not_mem_nil e)
  · intro slot skill
    constructor
    · intro hm
      exact absurd hm (List.not_mem_nil _)
    · intro hm
      exact absurd hm (List.not_mem_nil _)
  · intro p hp
    exact absurd hp (List.not_mem_nil p)

theorem RepoInv_AddType (env : Env) (r : Repository) (t : SkillType) (h : RepoInv r) :
    RepoInv (Repository.AddType env r t).1 := by
  rcases AddType_shape env r t with he | he <;> rw [he] <;> exact h

theorem RepoInv_AddSkill (env : Env) (r : Repository) (skill : Skill) (h : RepoInv r) :
    RepoInv (Repository.AddSkill env r skill).1 := by
  rcases AddSkill_shape env r skill with he | ⟨hnone, he⟩ <;> rw [he]
  · exact h
  refine ⟨⟨?_, h.1.2⟩, h.2.1, ?_⟩
  · intro e hmem
    rcases List.mem_cons.mp hmem with rfl | hmem
    · rfl
    · exact h.1.1 e hmem
  · intro p hp
    have hv := h.2.2 p hp
    refine ⟨hv.1, ?_⟩
    have hk : (skill.snap, skill.name) ≠ (p.2.snap, p.2.name) := by
      intro hkk
      rw [← hkk] at hv
      rw [hnone] at hv
      exact Option.noConfusion hv.2
    rw [lookupKey_cons_ne _ _ hk]
    exact hv.2

theorem RepoInv_RemoveSkill (r : Repository) (a b : String) (h : RepoInv r) :
    RepoInv (Repository.RemoveSkill r a b).1 := by
  rcases RemoveSkill_shape r a b with he | ⟨skill, hsk, hnouse, he⟩ <;> rw [he]
  · exact h
  refine ⟨⟨?_, h.1.2⟩, h.2.1, ?_⟩
  · intro e hmem
    exact h.1.1 e (mem_deleteKey.mp hmem).1
  · intro p hp
    have hv := h.2.2 p hp
    refine ⟨hv.1, ?_⟩
    by_cases hk : (p.2.snap, p.2.name) = (a, b)
    · exfalso
      rw [hk, hsk] at hv
      have heq : skill = p.2 := Option.some.inj hv.2
      have hg : (p.2, p.1) ∈ r.slotsUsingSkill := (h.2.1 p.1 p.2).mp hp
      exact hnouse (p.2, p.1) hg heq.symm
    · rw [lookupKey_deleteKey_ne _ hk]
      exact hv.2

theorem RepoInv_AddSlot (env : Env) (r : Repository) (slot : Slot) (h : RepoInv r) :
    RepoInv (Repository.AddSlot env r slot).1 := by
  rcases AddSlot_shape env r slot with he | ⟨hnone, he⟩ <;> rw [he]
  · exact h
  refine ⟨⟨h.1.1, ?_⟩, h.2.1, ?_⟩
  · intro e hmem
    rcases List.mem_cons.mp hmem with rfl | hmem
    · rfl
    · exact h.1.2 e hmem
  · intro p hp
    have hv := h.2.2 p hp
    refine ⟨?_, hv.2⟩
    have hk : (slot.snap, slot.name) ≠ (p.1.snap, p.1.name) := by
      intro hkk
      rw [← hkk] at hv
      rw [hnone] at hv
      exact Option.noConfusion hv.1
    rw [lookupKey_cons_ne _ _ hk]
    exact hv.1

theorem RepoInv_RemoveSlot (r : Repository) (a b : String) (h : RepoInv r) :
    RepoInv (Repository.RemoveSlot r a b).1 := by
  rcases RemoveSlot_shape r a b with he | ⟨slot, hsl, hnouse, he⟩ <;> rw [he]
  · exact h
  refine ⟨⟨h.1.1, ?_⟩, h.2.1, ?_⟩
  · intro e hmem
    exact h.1.2 e (mem_deleteKey.mp hmem).1
  · intro p hp
    have hv := h.2.2 p hp
    refine ⟨?_, hv.2⟩
    by_cases hk : (p.1.snap, p.1.name) = (a, b)
    · exfalso
      rw [hk, hsl] at hv
      have heq : slot = p.1 := Option.some.inj hv.1
      exact hnouse p hp heq.symm
    · rw [lookupKey_deleteKey_ne _ hk]
      exact hv.1

theorem RepoInv_Grant (r : Repository) (a b c d : String) (h : RepoInv r) :
    RepoInv (Repository.Grant r a b c d).1 := by
  rcases Grant_shape r a b c d with he | ⟨skill, slot, hsk, hsl, hty, hmem, he⟩ <;> rw [he]
  · exact h
  refine ⟨h.1, ?_, ?_⟩
  · intro x y
    rw [List.mem_cons, mem_insertPair]
    constructor
    · rintro (hxy | hxy)
      · rw [Prod.mk.injEq] at hxy
        exact Or.inl (by rw [hxy.1, hxy.2])
      · exact Or.inr ((h.2.1 x y).mp hxy)
    · rintro (hxy | hxy)
      · rw [Prod.mk.injEq] at hxy
        exact Or.inl (by rw [hxy.1, hxy.2])
      · exact Or.inr ((h.2.1 x y).mpr hxy)
  · intro p hp
    rcases List.mem_cons.mp hp with rfl | hp
    · have hc1 := h.1.2 _ (lookupKey_mem hsl)
      have hc2 := h.1.1 _ (lookupKey_mem hsk)
      dsimp only at hc1 hc2 ⊢
      constructor
      · rw [← hc1]
        exact hsl
      · rw [← hc2]
        exact hsk
    · exact h.2.2 p hp

theorem RepoInv_Revoke (r : Repository) (a b c d : String) (h : RepoInv r) :
    RepoInv (Repository.Revoke r a b c d).1 := by
  rcases Revoke_shape r a b c d with he | ⟨skill, slot, hsk, hsl, hmem, he⟩ <;> rw [he]
  · exact h
  have hswap : ∀ (x : Slot) (y : Skill), (x, y) = (slot, skill) ↔ (y, x) = (skill, slot) := by
    intro x y
    rw [Prod.mk.injEq, Prod.mk.injEq]
    exact and_comm
  refine ⟨h.1, ?_, ?_⟩
  · intro x y
    rw [mem_removePair, mem_removePair]
    constructor
    · rintro ⟨h1, h2⟩
      exact ⟨(h.2.1 x y).mp h1, fun hh => h2 ((hswap x y).mpr hh)⟩
    · rintro ⟨h1, h2⟩
      exact ⟨(h.2.1 x y).mpr h1, fun hh => h2 ((hswap x y).mp hh)⟩
  · intro p hp
    exact h.2.2 p (mem_removePair.mp hp).1

theorem RepoInv_of_reachable {env : Env} {r : Repository} (h : Reachable env r) : RepoInv r := by
  induction h with
  | empty => exact RepoInv_new
  | addType r t _ ih => exact RepoInv_AddType _ r t ih
  | addSkill r skill _ ih => exact RepoInv_AddSkill _ r skill ih
  | removeSkill r a b _ ih => exact RepoInv_RemoveSkill r a b ih
  | addSlot r slot _ ih => exact RepoInv_AddSlot _ r slot ih
  | removeSlot r a b _ ih => exact RepoInv_RemoveSlot r a b ih
  | grant r a b c d _ ih => exact RepoInv_Grant r a b c d ih
  | revoke r a b c d _ ih => exact RepoInv_Revoke r a b c d ih

/-! ### Concrete sample data, used to witness the theorems below -/

/-- An environment whose validators accept every name. -/
def env0 : Env :=
  { snapValidateName := fun _ => true, validateName := fun _ => true }

/-- The capability type of the spec scenario, accepting every skill. -/
def netType : SkillType :=
  { name := "net", sanitize := fun _ => none }

/-- The provider of the spec scenario. -/
def skill0 : Skill :=
  { snap := "app1", name := "iface", typ := "net" }

/-- The consumer of the spec scenario. -/
def slot0 : Slot :=
  { snap := "app2", name := "uplink", typ := "net" }

/-- The empty repository after registering type `"net"`. -/
def rType : Repository :=
  (Repository.AddType env0 NewRepository netType).1

/-- ... then adding the provider. -/
def rSkill : Repository :=
  (Repository.AddSkill env0 rType skill0).1

/-- ... then adding the consumer. -/
def rSlot : Repository :=
  (Repository.AddSlot env0 rSkill slot0).1

/-- ... then granting the provider to the consumer. -/
def rGranted : Repository :=
  (Repository.Grant rSlot "app1" "iface" "app2" "uplink").1

theorem rGranted_reachable : Reachable env0 rGranted :=
  Reachable.grant rSlot "app1" "iface" "app2" "uplink"
    (Reachable.addSlot rSkill slot0
      (Reachable.addSkill rType skill0
        (Reachable.addType NewRepository netType Reachable.empty)))

/-! ### The claims -/

/-- C1: for every registry state, `Grant` fails with the
skill-not-found or slot-not-found error if either endpoint is absent,
with the type-mismatch error if both exist but their types differ, with
the already-granted error if the pair is already connected, and
otherwise succeeds, inserting the edge into both directions of the dual
index; on every failure the returned state is exactly the input
state. -/
theorem grant_checks_and_dual_insert (r : Repository) (a b c d : String) :
    (lookupKey (a, b) r.skills = none →
      Repository.Grant r a b c d = (r, some (RepoError.grantSkillNotFound a b))) ∧
    (∀ skill, lookupKey (a, b) r.skills = some skill →
      lookupKey (c, d) r.slots = none →
      Repository.Grant r a b c d = (r, some (RepoError.grantSlotNotFound c d))) ∧
    (∀ skill slot, lookupKey (a, b) r.skills = some skill →
      lookupKey (c, d) r.slots = some slot →
      slot.typ ≠ skill.typ →
      Repository.Grant r a b c d = (r, some (RepoError.grantTypeMismatch skill.typ slot.typ))) ∧
    (∀ skill slot, lookupKey (a, b) r.skills = some skill →
      lookupKey (c, d) r.slots = some slot →
      slot.typ = skill.typ →
      (slot, skill) ∈ r.skillUsedBySlot →
      Repository.Grant r a b c d =
        (r, some (RepoError.grantAlreadyGranted skill.snap skill.name slot.snap slot.name))) ∧
    (∀ skill slot, lookupKey (a, b) r.skills = some skill →
      lookupKey (c, d) r.slots = some slot →
      slot.typ = skill.typ →
      (slot, skill) ∉ r.skillUsedBySlot →
      (Repository.Grant r a b c d).2 = none ∧
      (slot, skill) ∈ (Repository.Grant r a b c d).1.skillUsedBySlot ∧
      (skill, slot) ∈ (Repository.Grant r a b c d).1.slotsUsingSkill ∧
      (Repository.Grant r a b c d).1.types = r.types ∧
      (Repository.Grant r a b c d).1.skills = r.skills ∧
      (Repository.Grant r a b c d).1.slots = r.slots) := by
  refine ⟨?_, ?_, ?_, ?_, ?_⟩
  · intro h
    simp only [Repository.Grant, h]
  · intro skill h1 h2
    simp only [Repository.Grant, h1, h2]
  · intro skill slot h1 h2 h3
    simp only [Repository.Grant, h1, h2]
    rw [if_pos h3]
  · intro skill slot h1 h2 h3 h4
    simp only [Repository.Grant, h1, h2]
    rw [if_neg (not_not_intro h3), if_pos h4]
  · intro skill slot h1 h2 h3 h4
    simp only [Repository.Grant, h1, h2]
    rw [if_neg (not_not_intro h3), if_neg h4]
    rw [insertPair_of_not_mem h4]
    refine ⟨rfl, List.mem_cons_self _ _, ?_, rfl, rfl, rfl⟩
    exact mem_insertPair.mpr (Or.inl rfl)

/-- Witness for C1 at the spec scenario: the first grant succeeds and
both directions of the index hold the new edge. -/
theorem grant_checks_and_dual_insert_witness :
    (Repository.Grant rSlot "app1" "iface" "app2" "uplink").2 = none ∧
    (slot0, skill0) ∈ (Repository.Grant rSlot "app1" "iface" "app2" "uplink").1.skillUsedBySlot ∧
    (skill0, slot0) ∈ (Repository.Grant rSlot "app1" "iface" "app2" "uplink").1.slotsUsingSkill := by
  have h := (grant_checks_and_dual_insert rSlot "app1" "iface" "app2" "uplink").2.2.2.2
    skill0 slot0 (by decide) (by decide) rfl (by decide)
  exact ⟨h.1, h.2.1, h.2.2.1⟩

/-- C2: in every state reachable from the empty repository, the two
directions of the grant index represent exactly the same edge set. -/
theorem dual_index_invariant (env : Env) (r : Repository) (h : Reachable env r)
    (slot : Slot) (skill : Skill) :
    (slot, skill) ∈ r.skillUsedBySlot ↔ (skill, slot) ∈ r.slotsUsingSkill :=
  (RepoInv_of_reachable h).2.1 slot skill

/-- Witness for C2 at a reachable state that actually holds an edge. -/
theorem dual_index_invariant_witness :
    ((slot0, skill0) ∈ rGranted.skillUsedBySlot ↔ (skill0, slot0) ∈ rGranted.slotsUsingSkill) ∧
    (slot0, skill0) ∈ rGranted.skillUsedBySlot :=
  ⟨dual_index_invariant env0 rGranted rGranted_reachable slot0 skill0, by decide⟩

/-- C3: `AddSkill` performs its checks in order — snap (owner) name,
skill name, registered type, type sanitization, duplicate key — fails
with the corresponding error leaving the state untouched, and on
success stores the skill so that the lookup returns it, changing
nothing else. -/
theorem addSkill_ordered_checks (env : Env) (r : Repository) (skill : Skill) :
    (env.snapValidateName skill.snap = false →
      Repository.AddSkill env r skill = (r, some (RepoError.snapValidateNameFailed skill.snap))) ∧
    (env.snapValidateName skill.snap = true →
      env.validateName skill.name = false →
      Repository.AddSkill env r skill = (r, some (RepoError.validateNameFailed skill.name))) ∧
    (env.snapValidateName skill.snap = true →
      env.validateName skill.name = true →
      lookupName skill.typ r.types = none →
      Repository.AddSkill env r skill = (r, some (RepoError.skillTypeNotKnown skill.typ))) ∧
    (∀ t reason, env.snapValidateName skill.snap = true →
      env.validateName skill.name = true →
      lookupName skill.typ r.types = some t →
      t.sanitize skill = some reason →
      Repository.AddSkill env r skill = (r, some (RepoError.sanitizeRejected reason))) ∧
    (∀ t, env.snapValidateName skill.snap = true →
      env.validateName skill.name = true →
      lookupName skill.typ r.types = some t →
      t.sanitize skill = none →
      (∃ old, lookupKey (skill.snap, skill.name) r.skills = some old) →
      Repository.AddSkill env r skill = (r, some (RepoError.skillNameInUse skill.name))) ∧
    (∀ t, env.snapValidateName skill.snap = true →
      env.validateName skill.name = true →
      lookupName skill.typ r.types = some t →
      t.sanitize skill = none →
      lookupKey (skill.snap, skill.name) r.skills = none →
      (Repository.AddSkill env r skill).2 = none ∧
      (Repository.AddSkill env r skill).1.findSkill skill.snap skill.name = some skill ∧
      (Repository.AddSkill env r skill).1.types = r.types ∧
      (Repository.AddSkill env r skill).1.slots = r.slots ∧
      (Repository.AddSkill env r skill).1.skillUsedBySlot = r.skillUsedBySlot ∧
      (Repository.AddSkill env r skill).1.slotsUsingSkill = r.slotsUsingSkill ∧
      (∀ k, k ≠ (skill.snap, skill.name) →
        lookupKey k (Repository.AddSkill env r skill).1.skills = lookupKey k r.skills)) := by
  refine ⟨?_, ?_, ?_, ?_, ?_, ?_⟩
  · intro h1
    simp only [Repository.AddSkill, h1, Bool.not_false, if_true]
  · intro h1 h2
    simp only [Repository.AddSkill, h1, h2, Bool.not_false, Bool.not_true, if_true,
      Bool.false_eq_true, if_false]
  · intro h1 h2 h3
    simp only [Repository.AddSkill, h1, h2, h3, Bool.not_true, Bool.false_eq_true, if_false]
  · intro t reason h1 h2 h3 h4
    simp only [Repository.AddSkill, h1, h2, h3, h4, Bool.not_true, Bool.false_eq_true, if_false]
  · rintro t h1 h2 h3 h4 ⟨old, hold⟩
    simp only [Repository.AddSkill, h1, h2, h3, h4, hold, Bool.not_true, Bool.false_eq_true,
      if_false, Option.isSome_some, if_true]
  · intro t h1 h2 h3 h4 h5
    have hEq : Repository.AddSkill env r skill =
        ({ r with skills := ((skill.snap, skill.name), skill) :: r.skills }, none) := by
      simp only [Repository.AddSkill, h1, h2, h3, h4, h5, Bool.not_true, Bool.false_eq_true,
        if_false, Option.isSome_none]
    rw [hEq]
    refine ⟨rfl, ?_, rfl, rfl, rfl, rfl, ?_⟩
    · simp [Repository.findSkill, lookupKey]
    · intro k hk
      exact lookupKey_cons_ne _ _ (fun hh => hk hh.symm)

/-- Witness for C3: adding the scenario's provider to the repository
that registered the type succeeds and the lookup returns it. -/
theorem addSkill_ordered_checks_witness :
    (Repository.AddSkill env0 rType skill0).2 = none ∧
    (Repository.AddSkill env0 rType skill0).1.findSkill "app1" "iface" = some skill0 := by
  have h := (addSkill_ordered_checks env0 rType skill0).2.2.2.2.2 netType rfl rfl rfl rfl rfl
  exact ⟨h.1, h.2.1⟩

/-! ### C4: AddSlot is not symmetric to AddSkill -/

/-- An environment that rejects the snap name `"BAD"`. -/
def envStrict : Env :=
  { snapValidateName := fun s => decide (s ≠ "BAD"), validateName := fun _ => true }

/-- A capability type whose sanitization rejects every skill. -/
def rejType : SkillType :=
  { name := "rej", sanitize := fun _ => some "rejected" }

/-- The repository holding only the rejecting type. -/
def rRej : Repository :=
  (Repository.AddType envStrict NewRepository rejType).1

/-- A slot whose owner fails the tenant-name validator. -/
def slotBad : Slot :=
  { snap := "BAD", name := "uplink", typ := "rej" }

/-- Counterexample to C4 as stated: `AddSlot` accepts a slot whose
owner is rejected by the tenant-name validator (the source never calls
`snap.ValidateName` for slots — it is a `TODO` there — and never calls
`Sanitize` either, here a type that rejects everything), instead of
failing with the invalid-owner error the claim requires. -/
theorem addSlot_accepts_invalid_owner :
    envStrict.snapValidateName slotBad.snap = false ∧
    (Repository.AddSlot envStrict rRej slotBad).2 = none ∧
    (Repository.AddSlot envStrict rRej slotBad).1.findSlot "BAD" "uplink" = some slotBad := by
  refine ⟨rfl, rfl, rfl⟩

/-- C4 amended: `AddSlot` checks, in order, only the slot name
(failing name validation), that the type is registered (failing
unknown-type) and that the `(owner, name)` key is free (failing
name-in-use) — it validates neither the owner nor the type's
sanitization — and on success stores the slot; `RemoveSlot` fails
not-found on a missing slot, fails in-use while any grant references
the slot, and otherwise deletes it. -/
theorem addSlot_removeSlot_checks (env : Env) (r : Repository) (slot : Slot) (a b : String) :
    (env.validateName slot.name = false →
      Repository.AddSlot env r slot = (r, some (RepoError.validateNameFailed slot.name))) ∧
    (env.validateName slot.name = true →
      lookupName slot.typ r.types = none →
      Repository.AddSlot env r slot = (r, some (RepoError.slotTypeNotKnown slot.typ))) ∧
    (∀ t, env.validateName slot.name = true →
      lookupName slot.typ r.types = some t →
      (∃ old, lookupKey (slot.snap, slot.name) r.slots = some old) →
      Repository.AddSlot env r slot = (r, some (RepoError.slotNameInUse slot.name))) ∧
    (∀ t, env.validateName slot.name = true →
      lookupName slot.typ r.types = some t →
      lookupKey (slot.snap, slot.name) r.slots = none →
      (Repository.AddSlot env r slot).2 = none ∧
      (Repository.AddSlot env r slot).1.findSlot slot.snap slot.name = some slot ∧
      (Repository.AddSlot env r slot).1.types = r.types ∧
      (Repository.AddSlot env r slot).1.skills = r.skills ∧
      (Repository.AddSlot env r slot).1.skillUsedBySlot = r.skillUsedBySlot ∧
      (Repository.AddSlot env r slot).1.slotsUsingSkill = r.slotsUsingSkill) ∧
    (lookupKey (a, b) r.slots = none →
      Repository.RemoveSlot r a b = (r, some (RepoError.removeSlotNotFound a b))) ∧
    (∀ sl, lookupKey (a, b) r.slots = some sl →
      (∃ sk, (sl, sk) ∈ r.skillUsedBySlot) →
      Repository.RemoveSlot r a b = (r, some (RepoError.removeSlotInUse a b))) ∧
    (∀ sl, lookupKey (a, b) r.slots = some sl →
      (∀ sk, (sl, sk) ∉ r.skillUsedBySlot) →
      (Repository.RemoveSlot r a b).2 = none ∧
      lookupKey (a, b) (Repository.RemoveSlot r a b).1.slots = none) := by
  refine ⟨?_, ?_, ?_, ?_, ?_, ?_, ?_⟩
  · intro h1
    simp only [Repository.AddSlot, h1, Bool.not_false, if_true]
  · intro h1 h2
    simp only [Repository.AddSlot, h1, h2, Bool.not_true, Bool.false_eq_true, if_false]
  · rintro t h1 h2 ⟨old, hold⟩
    simp only [Repository.AddSlot, h1, h2, hold, Bool.not_true, Bool.false_eq_true, if_false,
      Option.isSome_some, if_true]
  · intro t h1 h2 h3
    have hEq : Repository.AddSlot env r slot =
        ({ r with slots := ((slot.snap, slot.name), slot) :: r.slots }, none) := by
      simp only [Repository.AddSlot, h1, h2, h3, Bool.not_true, Bool.false_eq_true, if_false,
        Option.isSome_none]
    rw [hEq]
    refine ⟨rfl, ?_, rfl, rfl, rfl, rfl⟩
    simp [Repository.findSlot, lookupKey]
  · intro h1
    simp only [Repository.RemoveSlot, h1]
  · rintro sl hsl ⟨sk, hmem⟩
    have hany : r.skillUsedBySlot.any (fun e => decide (e.1 = sl)) = true :=
      List.any_eq_true.mpr ⟨(sl, sk), hmem, by simp⟩
    simp only [Repository.RemoveSlot, hsl, hany, if_true]
  · intro sl hsl hno
    have hany : r.skillUsedBySlot.any (fun e => decide (e.1 = sl)) = false := by
      rw [← Bool.not_eq_true, List.any_eq_true]
      rintro ⟨e, hmem, hdec⟩
      rw [decide_eq_true_eq] at hdec
      refine hno e.2 ?_
      rw [← hdec]
      exact hmem
    have hEq : Repository.RemoveSlot r a b =
        ({ r with slots := deleteKey (a, b) r.slots }, none) := by
      simp only [Repository.RemoveSlot, hsl, hany, Bool.false_eq_true, if_false]
    rw [hEq]
    exact ⟨rfl, lookupKey_deleteKey_self _ _⟩

/-- Witness for the amended C4: adding the scenario's consumer
succeeds, and removing it from the grant-free state succeeds too. -/
theorem addSlot_removeSlot_checks_witness :
    (Repository.AddSlot env0 rSkill slot0).2 = none ∧
    (Repository.AddSlot env0 rSkill slot0).1.findSlot "app2" "uplink" = some slot0 ∧
    (Repository.RemoveSlot rSlot "app2" "uplink").2 = none := by
  refine ⟨?_, ?_, ?_⟩
  · exact ((addSlot_removeSlot_checks env0 rSkill slot0 "x" "y").2.2.2.1 netType rfl rfl rfl).1
  · exact ((addSlot_removeSlot_checks env0 rSkill slot0 "x" "y").2.2.2.1 netType rfl rfl rfl).2.1
  · refine ((addSlot_removeSlot_checks env0 rSlot slot0 "app2" "uplink").2.2.2.2.2.2 slot0
      (by decide) ?_).1
    intro sk hmem
    have : rSlot.skillUsedBySlot = [] := rfl
    rw [this] at hmem
    exact absurd hmem (List.not_mem_nil _)

/-! ### C5: Grant followed by Revoke restores the state -/

/-- C5: from any state in which the pair is not connected (in either
direction of the dual index) and `Grant` succeeds, revoking the same
pair returns the repository — in particular both grant listings — to
exactly the pre-grant state. -/
theorem grant_revoke_roundtrip (r : Repository) (a b c d : String) (skill : Skill) (slot : Slot)
    (hsk : lookupKey (a, b) r.skills = some skill)
    (hsl : lookupKey (c, d) r.slots = some slot)
    (hty : slot.typ = skill.typ)
    (hf : (slot, skill) ∉ r.skillUsedBySlot)
    (hg : (skill, slot) ∉ r.slotsUsingSkill) :
    (Repository.Grant r a b c d).2 = none ∧
    (Repository.Revoke (Repository.Grant r a b c d).1 a b c d).2 = none ∧
    (Repository.Revoke (Repository.Grant r a b c d).1 a b c d).1 = r ∧
    (∀ s, Repository.GrantedTo (Repository.Revoke (Repository.Grant r a b c d).1 a b c d).1 s =
      Repository.GrantedTo r s) ∧
    (∀ s, Repository.GrantedBy (Repository.Revoke (Repository.Grant r a b c d).1 a b c d).1 s =
      Repository.GrantedBy r s) := by
  have hGrant : Repository.Grant r a b c d =
      ({ r with
          skillUsedBySlot := (slot, skill) :: r.skillUsedBySlot,
          slotsUsingSkill := (skill, slot) :: r.slotsUsingSkill }, none) := by
    simp only [Repository.Grant, hsk, hsl]
    rw [if_neg (not_not_intro hty), if_neg hf]
    rw [insertPair_of_not_mem hf, insertPair_of_not_mem hg]
  have hRevoke : Repository.Revoke (Repository.Grant r a b c d).1 a b c d = (r, none) := by
    rw [hGrant]
    dsimp only
    simp only [Repository.Revoke]
    rw [hsk, hsl]
    dsimp only
    rw [if_pos (List.mem_cons_self _ _)]
    rw [removePair_cons_self hf, removePair_cons_self hg]
  refine ⟨by rw [hGrant], by rw [hRevoke], by rw [hRevoke], ?_, ?_⟩
  · intro s
    rw [hRevoke]
  · intro s
    rw [hRevoke]

/-- Witness for C5 at the spec scenario. -/
theorem grant_revoke_roundtrip_witness :
    (Repository.Revoke (Repository.Grant rSlot "app1" "iface" "app2" "uplink").1
      "app1" "iface" "app2" "uplink").1 = rSlot :=
  (grant_revoke_roundtrip rSlot "app1" "iface" "app2" "uplink" skill0 slot0
    (by decide) (by decide) rfl (by decide) (by decide)).2.2.1

/-! ### C6: the InUse guard of RemoveSkill -/

/-- C6: removing a skill fails with the not-found error when no such
skill exists; removing a skill that some grant still references always
fails with the in-use error and leaves the state unchanged; and once no
grant references it — as after revoking every grant touching it — the
same call succeeds and deletes the skill. -/
theorem removeSkill_inuse_guard (r : Repository) (a b : String) :
    (lookupKey (a, b) r.skills = none →
      Repository.RemoveSkill r a b = (r, some (RepoError.removeSkillNotFound a b))) ∧
    (∀ skill, lookupKey (a, b) r.skills = some skill →
      (∃ slot, (skill, slot) ∈ r.slotsUsingSkill) →
      Repository.RemoveSkill r a b = (r, some (RepoError.removeSkillInUse a b))) ∧
    (∀ skill, lookupKey (a, b) r.skills = some skill →
      (∀ slot, (skill, slot) ∉ r.slotsUsingSkill) →
      (Repository.RemoveSkill r a b).2 = none ∧
      lookupKey (a, b) (Repository.RemoveSkill r a b).1.skills = none ∧
      (Repository.RemoveSkill r a b).1.types = r.types ∧
      (Repository.RemoveSkill r a b).1.slots = r.slots ∧
      (Repository.RemoveSkill r a b).1.skillUsedBySlot = r.skillUsedBySlot ∧
      (Repository.RemoveSkill r a b).1.slotsUsingSkill = r.slotsUsingSkill) := by
  refine ⟨?_, ?_, ?_⟩
  · intro hnone
    simp only [Repository.RemoveSkill, hnone]
  · rintro skill hsk ⟨slot, hmem⟩
    have hany : r.slotsUsingSkill.any (fun e => decide (e.1 = skill)) = true :=
      List.any_eq_true.mpr ⟨(skill, slot), hmem, by simp⟩
    simp only [Repository.RemoveSkill, hsk, hany, if_true]
  · intro skill hsk hno
    have hany : r.slotsUsingSkill.any (fun e => decide (e.1 = skill)) = false := by
      rw [← Bool.not_eq_true, List.any_eq_true]
      rintro ⟨e, hmem, hdec⟩
      rw [decide_eq_true_eq] at hdec
      refine hno e.2 ?_
      rw [← hdec]
      exact hmem
    have hEq : Repository.RemoveSkill r a b =
        ({ r with skills := deleteKey (a, b) r.skills }, none) := by
      simp only [Repository.RemoveSkill, hsk, hany, Bool.false_eq_true, if_false]
    rw [hEq]
    exact ⟨rfl, lookupKey_deleteKey_self _ _, rfl, rfl, rfl, rfl⟩

/-- Witness for C6: removing a skill that was never added fails
not-found; removing the granted provider fails in-use; in the pre-grant
state (no grant references it) the same call succeeds. -/
theorem removeSkill_inuse_guard_witness :
    Repository.RemoveSkill rType "app1" "iface" =
      (rType, some (RepoError.removeSkillNotFound "app1" "iface")) ∧
    Repository.RemoveSkill rGranted "app1" "iface" =
      (rGranted, some (RepoError.removeSkillInUse "app1" "iface")) ∧
    (Repository.RemoveSkill rSlot "app1" "iface").2 = none := by
  refine ⟨?_, ?_, ?_⟩
  · exact (removeSkill_inuse_guard rType "app1" "iface").1 rfl
  · exact (removeSkill_inuse_guard rGranted "app1" "iface").2.1 skill0 (by decide)
      ⟨slot0, by decide⟩
  · refine ((removeSkill_inuse_guard rSlot "app1" "iface").2.2 skill0 (by decide) ?_).1
    intro slot hmem
    have : rSlot.slotsUsingSkill = [] := rfl
    rw [this] at hmem
    exact absurd hmem (List.not_mem_nil _)

/-! ### C7: every operation is all-or-nothing -/

/-- C7: for each of the seven mutating operations, any call that
returns an error returns the input state unchanged. -/
theorem operations_all_or_nothing (env : Env) (r : Repository) (t : SkillType)
    (skill : Skill) (slot : Slot) (a b c d : String) :
    ((Repository.AddType env r t).2.isSome = true → (Repository.AddType env r t).1 = r) ∧
    ((Repository.AddSkill env r skill).2.isSome = true → (Repository.AddSkill env r skill).1 = r) ∧
    ((Repository.RemoveSkill r a b).2.isSome = true → (Repository.RemoveSkill r a b).1 = r) ∧
    ((Repository.AddSlot env r slot).2.isSome = true → (Repository.AddSlot env r slot).1 = r) ∧
    ((Repository.RemoveSlot r a b).2.isSome = true → (Repository.RemoveSlot r a b).1 = r) ∧
    ((Repository.Grant r a b c d).2.isSome = true → (Repository.Grant r a b c d).1 = r) ∧
    ((Repository.Revoke r a b c d).2.isSome = true → (Repository.Revoke r a b c d).1 = r) := by
  refine ⟨?_, ?_, ?_, ?_, ?_, ?_, ?_⟩
  · unfold Repository.AddType
    dsimp only
    split
    · intro _; rfl
    · split
      · intro _; rfl
      · intro hs; simp at hs
  · unfold Repository.AddSkill
    split
    · intro _; rfl
    · split
      · intro _; rfl
      · split
        · intro _; rfl
        · split
          · intro _; rfl
          · split
            · intro _; rfl
            · intro hs; simp at hs
  · unfold Repository.RemoveSkill
    split
    · intro _; rfl
    · split
      · intro _; rfl
      · intro hs; simp at hs
  · unfold Repository.AddSlot
    split
    · intro _; rfl
    · split
      · intro _; rfl
      · split
        · intro _; rfl
        · intro hs; simp at hs
  · unfold Repository.RemoveSlot
    split
    · intro _; rfl
    · split
      · intro _; rfl
      · intro hs; simp at hs
  · unfold Repository.Grant
    split
    · intro _; rfl
    · split
      · intro _; rfl
      · split
        · intro _; rfl
        · split
          · intro _; rfl
          · intro hs; simp at hs
  · unfold Repository.Revoke
    split
    · intro _; rfl
    · split
      · intro _; rfl
      · split
        · intro hs; simp at hs
        · intro _; rfl

/-- Witness for C7: re-registering the already-present type fails and
returns the state unchanged. -/
theorem operations_all_or_nothing_witness :
    (Repository.AddType env0 rType netType).2.isSome = true ∧
    (Repository.AddType env0 rType netType).1 = rType :=
  ⟨rfl, (operations_all_or_nothing env0 rType netType skill0 slot0 "a" "b" "c" "d").1 rfl⟩

/-! ### C8: every listing is sorted by (owner, name) -/

/-- C8: every listing operation returns its entries — and, for the two
grant listings, each per-endpoint list — sorted ascending by
`(owner, name)`, in every state and for every filter argument. -/
theorem listings_sorted (r : Repository) (filterType snapName : String) :
    List.Pairwise skillKeyLe (Repository.AllSkills r filterType) ∧
    List.Pairwise skillKeyLe (Repository.Skills r snapName) ∧
    List.Pairwise slotKeyLe (Repository.AllSlots r filterType) ∧
    List.Pairwise slotKeyLe (Repository.Slots r snapName) ∧
    (∀ p ∈ Repository.GrantedTo r snapName, List.Pairwise skillKeyLe p.2) ∧
    (∀ p ∈ Repository.GrantedBy r snapName, List.Pairwise slotKeyLe p.2) := by
  refine ⟨sortSkills_sorted _, sortSkills_sorted _, sortSlots_sorted _, sortSlots_sorted _,
    ?_, ?_⟩
  · intro p hp
    simp only [Repository.GrantedTo, List.mem_filterMap] at hp
    obtain ⟨e, hmem, heq⟩ := hp
    split at heq
    · exact Option.noConfusion heq
    · obtain rfl := Option.some.inj heq
      exact sortSkills_sorted _
  · intro p hp
    simp only [Repository.GrantedBy, List.mem_filterMap] at hp
    obtain ⟨e, hmem, heq⟩ := hp
    split at heq
    · exact Option.noConfusion heq
    · obtain rfl := Option.some.inj heq
      exact sortSlots_sorted _

/-- Witness for C8: the grant listing of the scenario state holds the
expected entry and its per-slot list is sorted. -/
theorem listings_sorted_witness :
    (slot0, [skill0]) ∈ Repository.GrantedTo rGranted "app2" ∧
    List.Pairwise skillKeyLe [skill0] := by
  constructor
  · decide
  · exact (listings_sorted rGranted "" "app2").2.2.2.2.1 (slot0, [skill0]) (by decide)

/-! ### C10: referential integrity of the grant relation -/

/-- C10: in every reachable state, every edge of either direction of
the dual grant index connects a slot and a skill that are both present
in the repository's tables. -/
theorem grants_reference_existing_endpoints (env : Env) (r : Repository)
    (h : Reachable env r) :
    (∀ p ∈ r.skillUsedBySlot,
      lookupKey (p.1.snap, p.1.name) r.slots = some p.1 ∧
      lookupKey (p.2.snap, p.2.name) r.skills = some p.2) ∧
    (∀ p ∈ r.slotsUsingSkill,
      lookupKey (p.1.snap, p.1.name) r.skills = some p.1 ∧
      lookupKey (p.2.snap, p.2.name) r.slots = some p.2) := by
  have hinv := RepoInv_of_reachable h
  refine ⟨hinv.2.2, ?_⟩
  intro p hp
  have hf : (p.2, p.1) ∈ r.skillUsedBySlot := (hinv.2.1 p.2 p.1).mpr hp
  have hv := hinv.2.2 _ hf
  exact ⟨hv.2, hv.1⟩

/-- Witness for C10 at the scenario state holding an edge. -/
theorem grants_reference_existing_endpoints_witness :
    lookupKey ("app2", "uplink") rGranted.slots = some slot0 ∧
    lookupKey ("app1", "iface") rGranted.skills = some skill0 :=
  (grants_reference_existing_endpoints env0 rGranted rGranted_reachable).1
    (slot0, skill0) (by decide)
